import Mathlib

/-!
Shallow embedding of the prompt-templating engine of this repository
(`utils/fillVars.js`, `utils/compileHelper.js`, `utils/loadHelperModule.js`)
and proofs about the claims of its specification.

Conventions of the embedding:
* strings are processed as `List Char`, exactly mirroring the JavaScript
  index-based scans; `String.mk`/`String.toList` convert at the boundaries;
* the Node `vm` evaluation of an expression inside the sandbox context is
  not a template-engine algorithm and cannot be re-implemented here; it is
  abstracted as an *oracle* `String → EvalOutcome` giving, for each
  (already nested-rendered, trimmed) expression source, the outcome the
  sandbox produced: a value, or a raised error carrying its message
  (reference / type / syntax errors, timeouts and rejected promises all
  surface in `evalExpr` as a caught exception or rejection with a message);
* JavaScript character classes: `\w` is `[A-Za-z0-9_]`; `\s` is modelled by
  `jsWs` below (the inputs of every concrete theorem are ASCII).
-/

/-- JS `\w` word character: `[A-Za-z0-9_]`. -/
def wordChar (c : Char) : Bool :=
  (('a' ≤ c ∧ c ≤ 'z') ∨ ('A' ≤ c ∧ c ≤ 'Z') ∨ ('0' ≤ c ∧ c ≤ '9') ∨ c = '_' : Bool)

/-- JS `\s` whitespace (restricted to the ASCII whitespace characters). -/
def jsWs (c : Char) : Bool :=
  c = ' ' ∨ c = '\t' ∨ c = '\n' ∨ c = '\r' ∨ c = '\x0b' ∨ c = '\x0c'

/-- If `p` is a prefix of `l`, the remainder after it (literal matching). -/
def litPref : List Char → List Char → Option (List Char)
  | [], l => some l
  | _, [] => none
  | p :: ps, c :: cs => if p = c then litPref ps cs else none

/-- Substring search: does `pat` occur in `l`? (JS `String.includes`). -/
def hasSubList (pat : List Char) : List Char → Bool
  | [] => (litPref pat []).isSome
  | c :: rest => (litPref pat (c :: rest)).isSome || hasSubList pat rest

/-- JS `String.includes` on strings. -/
def hasSub (s pat : String) : Bool := hasSubList pat.toList s.toList

/-- JS `String.trim` over char lists. -/
def jsTrim (l : List Char) : List Char :=
  ((l.dropWhile jsWs).reverse.dropWhile jsWs).reverse

/-- The value a sandboxed evaluation can produce, by its JS type.
`date` carries the value of `toISOString()`, `obj` the value of
`JSON.stringify` (arrays and plain objects are only observed through that
serialization in `toString`), mirroring how `utils/fillVars.js::toString`
consumes them. -/
inductive JsVal where
  | undef : JsVal
  | null : JsVal
  | bool : Bool → JsVal
  | num : Int → JsVal
  | str : String → JsVal
  | date : String → JsVal
  | obj : String → JsVal
  deriving DecidableEq, Repr

/-- Outcome of compiling-and-running one expression in the sandbox
(`new vm.Script(wrapped)` + `runInContext` + the promise race in
`evalExpr`): a settled value, or a raised/rejected error message. -/
inductive EvalOutcome where
  | ok : JsVal → EvalOutcome
  | thrown : String → EvalOutcome
  deriving DecidableEq, Repr

/-- `utils/fillVars.js::toString` (lines 69-74):
`undefined → undefined` (so the caller re-emits the literal block),
`Date → toISOString().slice(0, 10)`, other objects → `JSON.stringify`,
anything else → `String(val)`.  JS quirk mirrored: `typeof null` is
`"object"`, and `JSON.stringify(null)` is `"null"`. -/
def jsToString : JsVal → Option String
  | .undef => none
  | .date iso => some (iso.take 10)
  | .null => some "null"
  | .obj j => some j
  | .bool b => some (if b then "true" else "false")
  | .num n => some n.repr
  | .str s => some s

/-- The debug-mode error text of `evalExpr` (suggestion/examples fields of
the raised error are absent for the errors the oracle models, so the
defaults `Check syntax and variable names.` / `N/A` apply). -/
def evalErrDebug (m : String) : String :=
  "\x7b\x7bError: " ++ m ++
  "\nSuggestion: Check syntax and variable names.\nExamples: N/A\n\x7d\x7d"

/-- `utils/fillVars.js::evalExpr` (lines 81-183), with the sandbox run
abstracted by `oracle`.  Every failure of compilation, synchronous
execution, timeout or promise rejection is caught at this boundary and
returned as an inline `{{Error: ...}}` marker string; a successful result
is stringified by `toString`, `undefined` re-emitting the literal block.
The expression cache (`expressionCache`) only memoises the compiled
`vm.Script` keyed by the exact source text and does not change the
result value; it is modelled separately (`LRU` below) for the cache
claims. -/
def evalExpr (oracle : String → EvalOutcome) (debug : Bool) (expr : List Char) : List Char :=
  match oracle (String.mk expr) with
  | .thrown m =>
      if debug then (evalErrDebug m).toList
      else ("\x7b\x7bError: " ++ m ++ "\x7d\x7d").toList
  | .ok v =>
      match jsToString v with
      | none => ("\x7b\x7b".toList ++ expr ++ "\x7d\x7d".toList)
      | some s => s.toList

/-- `tpl.indexOf('\x7b\x7b', i)` relative to the remainder: index of the first
occurrence of two consecutive opening braces. -/
def findOpen : List Char → Option Nat
  | [] => none
  | [_] => none
  | c₁ :: c₂ :: rest =>
      if c₁ = '{' ∧ c₂ = '{' then some 0
      else (findOpen (c₂ :: rest)).map (· + 1)

/-- The inner scan of `render` (lines 209-234) that finds the matching
closing braces with nesting and string-literal awareness.  Returns the
index (relative to the char after the opening `\x7b\x7b`) of the breaking `\x7d`
whose successor is `\x7d`, or `none` when the scan runs off the end
(unclosed expression).  The leading-whitespace skip of line 211 is folded
in: whitespace characters are neutral to the scanner state (they are not
quotes, braces or backslashes), so scanning them is equivalent to
skipping them. -/
def scanClose : List Char → Bool → Bool → Int → Option Nat
  | [], _, _, _ => none
  | c :: rest, inStr, esc, depth =>
      let inStr' := if (c = '"' ∨ c = '\x27') ∧ ¬esc then !inStr else inStr
      let esc' := (c = '\\' ∧ ¬esc : Bool)
      if ¬inStr' ∧ c = '{' then (scanClose rest inStr' esc' (depth + 1)).map (· + 1)
      else if ¬inStr' ∧ c = '}' then
        if depth = 0 ∧ rest.head? = some '}' then some 0
        else (scanClose rest inStr' esc' (depth - 1)).map (· + 1)
      else (scanClose rest inStr' esc' depth).map (· + 1)

/-- Non-debug unclosed-expression marker (line 243). -/
def unclosedMsg (debug : Bool) (openAbs : Nat) : List Char :=
  if debug then
    ("\x7b\x7bError: Unclosed expression starting at position " ++ openAbs.repr ++
     ".\nSuggestion: Check for missing closing braces \x27\x7d\x7d\x27. Every opening \x27\x7b\x7b\x27 must have a matching \x27\x7d\x7d\x27 pair.\nExample: Bad: \x7b\x7bMath.max(1, 2)  Good: \x7b\x7bMath.max(1, 2)\x7d\x7d\n\x7d\x7d").toList
  else
    ("\x7b\x7bError: Unclosed expression starting at position " ++ openAbs.repr ++ "\x7d\x7d").toList

/-- The iteration-limit message of `render` (lines 277-282). -/
def iterLimitMsg (debug : Bool) (maxIter tplLen : Nat) : List Char :=
  if debug then
    ("\x7b\x7bError: Template processing exceeded " ++ maxIter.repr ++
     " iterations.\nSuggestion: Your template may contain an infinite loop or is extremely complex. Check for circular references or self-replacing patterns.\nExample: Bad: \x7b\x7bvar\x7d\x7d where var=\x27\x7b\x7bvar\x7d\x7d\x27 (self-reference)  Good: \x7b\x7bvar\x7d\x7d where var has a final value\n\x7d\x7d").toList
  else
    ("\x7b\x7bError: Template processing exceeded " ++ maxIter.repr ++
     " iterations (template length: " ++ tplLen.repr ++
     ") - possible infinite loop or very complex template\x7d\x7d").toList

/-- `options.maxIterations || Math.min(10000, Math.max(1000, tpl.length * 5))`
(lines 192-193); `some 0` falls to the default because `0` is falsy. -/
def effMaxIter (mo : Option Nat) (len : Nat) : Nat :=
  match mo with
  | some n => if n = 0 then min 10000 (max 1000 (len * 5)) else n
  | none => min 10000 (max 1000 (len * 5))

/-- The `while` loop of `render` (lines 197-274).  Arguments: `nested` is
the recursive render used on nested `\x7b\x7b` inside a captured expression
(line 257 — it passes only `debugMode` onward, recomputing the iteration
default); `il` is `maxIterations - iterations` (the loop guard
`iterations < maxIterations` holds exactly while `il > 0`); `pos` is `i`;
`out` the accumulator.  Returns the accumulated output and the final
`il`, from which the caller reconstructs `iterations >= maxIterations`
(`il = 0`). -/
def renderIter (nested : List Char → List Char) (oracle : String → EvalOutcome)
    (debug : Bool) (tpl : List Char) : Nat → Nat → List Char → List Char × Nat
  | 0, _, out => (out, 0)
  | il + 1, pos, out =>
      if tpl.length ≤ pos then (out, il + 1)
      else
        let rest := tpl.drop pos
        match findOpen rest with
        | none => (out ++ rest, il)
        | some r =>
            let out₂ := out ++ rest.take r
            let openAbs := pos + r
            let scanPart := tpl.drop (openAbs + 2)
            match scanClose scanPart false false 0 with
            | none => (out₂ ++ unclosedMsg debug openAbs, il)
            | some j =>
                let exprRaw := jsTrim (scanPart.take j)
                let expr := if (findOpen exprRaw).isSome then nested exprRaw else exprRaw
                renderIter nested oracle debug tpl il (openAbs + 2 + j + 2)
                  (out₂ ++ evalExpr oracle debug expr)

/-- `utils/fillVars.js::render` (lines 186-305) with explicit recursion
fuel.  Each nested render call (line 257) works on an expression strictly
shorter than its template (the captured span excludes the surrounding
braces), so a fuel of `tpl.length + 1` never runs out; the `fuel = 0`
branch is an artifact of the encoding, not of the source.  The outer
`try/catch` of lines 288-304 is not modelled: no operation remaining in
the loop can throw (`evalExpr` catches everything). -/
def renderFuel (oracle : String → EvalOutcome) (debug : Bool) :
    Nat → Option Nat → List Char → List Char
  | 0, _, _ => []
  | fuel + 1, mo, tpl =>
      let maxIter := effMaxIter mo tpl.length
      let r := renderIter (renderFuel oracle debug fuel none) oracle debug tpl maxIter 0 []
      if r.2 = 0 then iterLimitMsg debug maxIter tpl.length else r.1

/-- `render` at the top level: fuel large enough for any nesting chain. -/
def renderModel (oracle : String → EvalOutcome) (debug : Bool)
    (mo : Option Nat) (tpl : List Char) : List Char :=
  renderFuel oracle debug (tpl.length + 1) mo tpl

example :
    renderModel (fun _ => .thrown "undefinedVar is not defined") false none
      "\x7b\x7b undefinedVar + 1 \x7d\x7d".toList
      = "\x7b\x7bError: undefinedVar is not defined\x7d\x7d".toList := by decide

/-- The values of a `vars` entry at the template-substitution step
(the spec types them string | number | null; `undef` covers a key bound
to `undefined`). -/
inductive VarVal where
  | vstr : String → VarVal
  | vnum : Int → VarVal
  | vnull : VarVal
  | vundef : VarVal
  deriving DecidableEq, Repr

/-- JS `String(v)` on a scalar `vars` value (numbers are modelled as
integers; JS prints an integral double without a decimal point, matching
`Int.repr`). -/
def jsString : VarVal → String
  | .vstr s => s
  | .vnum n => n.repr
  | .vnull => "null"
  | .vundef => "undefined"

/-- `template.replace(/\x60/g, '\\\x60')` (line 335): escape stray backticks. -/
def escBackticks : List Char → List Char
  | [] => []
  | c :: rest =>
      if c = '\x60' then '\\' :: '\x60' :: escBackticks rest
      else c :: escBackticks rest

/-- One attempted match of `/(?<!\{)\{([\w]+)\}(?!\})/` at a position just
after an opening `\x7b`: a maximal nonempty `\w+` run, a `\x7d`, and a
lookahead rejecting a following `\x7d`.  Returns the key and the remainder
after the consumed `\x7d`. -/
def matchVar (l : List Char) : Option (String × List Char) :=
  let w := l.takeWhile wordChar
  if w.isEmpty then none
  else
    match l.drop w.length with
    | '}' :: r₂ => if r₂.head? = some '}' then none else some (String.mk w, r₂)
    | _ => none

/-- The debugMode replacement `\x7b k ?\x7d` for a missing variable. -/
def missingMark (k : String) : List Char :=
  '{' :: k.toList ++ ['?', '}']

/-- The placeholder pass (lines 341-354):
`txt.replace(/(?<!\{)\{([\w]+)\}(?!\})/g, ...)`.  `prev` is the input
character before the current position (the lookbehind inspects the input
string, not the replaced output).  A present key is replaced by
`String(val)` unless the value is `null`/`undefined`, which yield `''`;
a missing key stays literal (non-debug) or becomes `\x7bk?\x7d` (debug) and is
recorded when `detect` is set.  Fuel is the number of characters left to
scan (a match consumes at least three characters), so `l.length` fuel
suffices; the 0-fuel branch is an encoding artifact. -/
def replVarsGo (debug detect : Bool) (vars : List (String × VarVal)) :
    Nat → Option Char → List Char → List Char × List String
  | 0, _, l => (l, [])
  | _ + 1, _, [] => ([], [])
  | fuel + 1, prev, c :: rest =>
      if c = '{' ∧ prev ≠ some '{' then
        match matchVar rest with
        | some (k, rest') =>
            let (tail, miss) := replVarsGo debug detect vars fuel (some '}') rest'
            match vars.lookup k with
            | some v =>
                let rep := match v with
                  | .vnull => []
                  | .vundef => []
                  | v => (jsString v).toList
                (rep ++ tail, miss)
            | none =>
                let emitted := if debug then missingMark k else '{' :: k.toList ++ ['}']
                (emitted ++ tail, if detect then k :: miss else miss)
        | none =>
            let (tail, miss) := replVarsGo debug detect vars fuel (some c) rest
            (c :: tail, miss)
      else
        let (tail, miss) := replVarsGo debug detect vars fuel (some c) rest
        (c :: tail, miss)

/-- Placeholder pass entry point. -/
def replVars (debug detect : Bool) (vars : List (String × VarVal))
    (l : List Char) : List Char × List String :=
  replVarsGo debug detect vars l.length none l

/-- First-occurrence deduplication, matching the insertion-order `Set`
used for `missingVars`. -/
def dedupFirst : List String → List String
  | [] => []
  | k :: rest =>
      let r := dedupFirst rest
      k :: r.filter (· ≠ k)

/-- The debug-mode missing-variables warning block prepended to the
template (lines 362-366). -/
def missWarnBlock (missing : List String) : List Char :=
  ("\x7b\x7bWarning: Missing variables: " ++ String.intercalate ", " missing ++
   ".\nSuggestion: Make sure all needed variables are provided in the context.\nExamples: If using \x7bdob\x7d, make sure \x27dob\x27 is in the vars object.\n\x7d\x7d\n\n").toList

/-- The nesting-depth marker of `renderWithDepth` (lines 391-399). -/
def depthMsg (debug : Bool) (maxRenderDepth : Int) : List Char :=
  if debug then
    ("\x7b\x7bError: Maximum template nesting depth (" ++ maxRenderDepth.repr ++
     ") exceeded.\nSuggestion: Your template has too many nested levels. Consider simplifying its structure or breaking it into smaller templates.\nExample: Bad: \x7b\x7ba\x7d\x7d where a=\x27\x7b\x7bb\x7d\x7d\x27 where b=\x27\x7b\x7bc\x7d\x7d\x27 etc.  Good: Flatten the structure where possible\n\x7d\x7d").toList
  else
    ("\x7b\x7bError: Maximum template nesting depth (" ++ maxRenderDepth.repr ++
     ") exceeded\x7d\x7d").toList

/-- The options object of `fillVars` (lines 324-329).  `maxRenderDepth`
defaults to 10 through destructuring (only an absent key takes the
default); `maxIterations` is read inside `render` with `||`, so both
absence and `0` fall to the computed default; `clearCache` empties the
process-wide expression cache, which is modelled separately and does not
affect the rendered text. -/
structure FillOpts where
  maxRenderDepth : Option Int := none
  clearCache : Bool := false
  debugMode : Bool := false
  detectMissingVars : Bool := true
  maxIterations : Option Nat := none

/-- The template argument, distinguishing the structurally invalid
non-string case handled at lines 319-322. -/
inductive TemplateArg where
  | str : String → TemplateArg
  | nonString : TemplateArg

/-- `module.exports = async function fillVars(template, vars, helpers, options)`
(lines 317-413).  The result type `Except String String` records whether
the promise resolves (`ok`) or rejects to the caller (`error`); the body
contains no `throw` and every path `return`s, so every branch below is an
`ok`.  `helpers` enter the rendered output only through the evaluation
context, i.e. through `oracle`.  `renderWithDepth` is called exactly once,
at `depth = 0`; the depth test compares `0 >= maxRenderDepth` (nested
expression blocks inside `render` recurse through `render` itself, line
257, not through `renderWithDepth`). -/
def fillVarsE (oracle : String → EvalOutcome) (arg : TemplateArg)
    (vars : List (String × VarVal)) (opts : FillOpts) : Except String String :=
  match arg with
  | .nonString => .ok ""
  | .str template =>
      let maxRenderDepth : Int := opts.maxRenderDepth.getD 10
      let txt₀ := escBackticks template.toList
      let pr := replVars opts.debugMode opts.detectMissingVars vars txt₀
      let missing := dedupFirst pr.2
      let txt := if opts.debugMode ∧ ¬missing.isEmpty then missWarnBlock missing ++ pr.1 else pr.1
      if maxRenderDepth ≤ 0 then .ok (String.mk (depthMsg opts.debugMode maxRenderDepth))
      else .ok (String.mk (renderModel oracle opts.debugMode opts.maxIterations txt))

instance {α β : Type} [DecidableEq α] [DecidableEq β] : DecidableEq (Except α β)
  | .ok a, .ok b =>
      if h : a = b then .isTrue (by rw [h]) else .isFalse (by simp [h])
  | .error a, .error b =>
      if h : a = b then .isTrue (by rw [h]) else .isFalse (by simp [h])
  | .ok _, .error _ => .isFalse (by simp)
  | .error _, .ok _ => .isFalse (by simp)

example :
    fillVarsE (fun _ => .thrown "undefinedVar is not defined")
      (.str "\x7b\x7b undefinedVar + 1 \x7d\x7d") [] {}
      = .ok "\x7b\x7bError: undefinedVar is not defined\x7d\x7d" := by decide

example :
    fillVarsE (fun _ => .thrown "x") (.str "Hello, \x7bname\x7d!")
      [("name", .vstr "World")] {} = .ok "Hello, World!" := by decide

/-! ## The expression cache: `utils/fillVars.js::LRUCache` (lines 32-64) -/

/-- The LRU cache state: `maxSize` and the backing `Map` as its ordered
entry list, oldest (first-inserted) first — JS `Map` iterates in
insertion order and `keys().next().value` is the first key.  `V` stands
for the stored values (compiled `vm.Script` objects, which are always
truthy). -/
structure LRU (V : Type) where
  maxSize : Nat
  entries : List (String × V)
  deriving Repr

/-- `Map.delete(key)` followed by `Map.set(key, item)` with the looked-up
item (the body of `LRUCache.get` when the key is present): the entry
moves to the end, keeping its value.  Applied to an absent key (falsy
`item`) nothing happens, matching the `if (item)` guard. -/
def moveEnd (k : String) : List (String × V) → List (String × V)
  | [] => []
  | e :: rest => if e.1 = k then rest ++ [e] else e :: moveEnd k rest

/-- `LRUCache.has`. -/
def LRU.hasKey (c : LRU V) (k : String) : Bool := (c.entries.lookup k).isSome

/-- `LRUCache.get` (lines 42-50): refresh the access order when present. -/
def LRU.getOp (c : LRU V) (k : String) : LRU V :=
  { c with entries := moveEnd k c.entries }

/-- `LRUCache.set` (lines 52-59): when already at (or beyond) capacity,
delete the oldest key first (`keys().next().value`; a no-op on an empty
map), then `Map.set`: replace in place when the key exists, else append. -/
def LRU.setOp (c : LRU V) (k : String) (v : V) : LRU V :=
  let entries₁ := if c.maxSize ≤ c.entries.length then c.entries.tail else c.entries
  if (entries₁.lookup k).isSome then
    { c with entries := entries₁.map (fun e => if e.1 = k then (k, v) else e) }
  else
    { c with entries := entries₁ ++ [(k, v)] }

/-- `LRUCache.clear`. -/
def LRU.clearOp (c : LRU V) : LRU V := { c with entries := [] }

/-- One call against the cache. -/
inductive CacheOp (V : Type) where
  | set : String → V → CacheOp V
  | get : String → CacheOp V
  | has : String → CacheOp V
  | clear : CacheOp V

/-- Apply one operation. -/
def LRU.apply (c : LRU V) : CacheOp V → LRU V
  | .set k v => c.setOp k v
  | .get k => c.getOp k
  | .has _ => c
  | .clear => c.clearOp

/-- `const expressionCache = new LRUCache(5000)` (line 67), with `V`
abstract since only presence and order matter. -/
def expressionCacheInit (V : Type) : LRU V := { maxSize := 5000, entries := [] }

lemma length_moveEnd (k : String) (l : List (String × V)) :
    (moveEnd k l).length = l.length := by
  induction l with
  | nil => rfl
  | cons e rest ih =>
      by_cases h : e.1 = k <;> simp [moveEnd, h, ih]

lemma LRU.maxSize_apply (c : LRU V) (op : CacheOp V) :
    (c.apply op).maxSize = c.maxSize := by
  cases op with
  | has _ => rfl
  | clear => rfl
  | get k => rfl
  | set k v =>
      simp only [LRU.apply, LRU.setOp]
      by_cases hmem : ((if c.maxSize ≤ c.entries.length then c.entries.tail
          else c.entries).lookup k).isSome <;> simp [hmem]

lemma LRU.length_apply_le (c : LRU V) (op : CacheOp V)
    (hmax : 1 ≤ c.maxSize) (hlen : c.entries.length ≤ c.maxSize) :
    ((c.apply op).entries.length ≤ c.maxSize) := by
  cases op with
  | has _ => exact hlen
  | clear => simp [LRU.apply, LRU.clearOp]
  | get k => simpa [LRU.apply, LRU.getOp, length_moveEnd] using hlen
  | set k v =>
      simp only [LRU.apply, LRU.setOp]
      by_cases hcap : c.maxSize ≤ c.entries.length
      · have hlen' : c.entries.length = c.maxSize := Nat.le_antisymm hlen hcap
        by_cases hmem : (c.entries.tail.lookup k).isSome <;>
          · simp [hcap, hmem, List.length_tail]
            omega
      · by_cases hmem : (c.entries.lookup k).isSome <;>
          · simp [hcap, hmem]
            omega

/-- Size invariant under arbitrary operation sequences. -/
lemma LRU.length_foldl_le (ops : List (CacheOp V)) (c : LRU V)
    (hmax : 1 ≤ c.maxSize) (hlen : c.entries.length ≤ c.maxSize) :
    ((ops.foldl LRU.apply c).entries.length ≤ c.maxSize) := by
  induction ops generalizing c with
  | nil => exact hlen
  | cons op rest ih =>
      have hsz := c.maxSize_apply op
      have := ih (c.apply op) (by rw [hsz]; exact hmax)
        (by rw [hsz]; exact c.length_apply_le op hmax hlen)
      rw [hsz] at this
      simpa using this

/-! ## `utils/compileHelper.js` (the enhanced compiler, lines 61-164) -/

/-- Search for a literal followed by at least one whitespace character:
the test of `/return\s+/` or `/import\s/` style patterns.  Note
`/return\s+[^;]*/` is equivalent as a test since `[^;]*` matches the
empty string. -/
def litThenWs (pat : List Char) : List Char → Bool
  | [] => false
  | c :: rest =>
      (match litPref pat (c :: rest) with
       | some (d :: _) => jsWs d
       | _ => false) || litThenWs pat rest

/-- After a matched `=>`, the tail of `/=>\s*(\([^)]*\)|[^({\s])/`:
skip whitespace (the only skip amount on which either alternative can
start, since both reject whitespace); then either a parenthesis group —
`(` with some later `)` and no `)` in between, i.e. simply a later `)` —
or a single character that is none of `(`, `\x7b`, whitespace. -/
def afterArrowCH (l : List Char) : Bool :=
  match l.dropWhile jsWs with
  | '(' :: t => t.contains ')'
  | c :: _ => (¬(c = '(' ∨ c = '{' ∨ jsWs c) : Bool)
  | [] => false

/-- The test of `/=>\s*(\([^)]*\)|[^({\s])/` (compileHelper line 96). -/
def arrowTestCH : List Char → Bool
  | '=' :: '>' :: rest => afterArrowCH rest || arrowTestCH ('>' :: rest)
  | _ :: rest => arrowTestCH rest
  | [] => false

/-- `.*return\s+` from the current position: a `return` + whitespace
occurrence reachable without crossing a line terminator (JS `.` matches
neither `\n` nor `\r`). -/
def dotReturn : List Char → Bool
  | [] => false
  | c :: rest =>
      (match litPref "return".toList (c :: rest) with
       | some (d :: _) => jsWs d
       | _ => false) ||
      (if c = '\n' ∨ c = '\r' then false else dotReturn rest)

/-- The gap between the `\s+` after `async` and the `return`: first any
further whitespace (which may span lines, still matched by `\s+`), then a
line-local `.*` run, then `return\s+` — any split works, so at every
point we may either start the `.*` phase (`dotReturn`) or, on a
whitespace character, stay in the `\s+` phase. -/
def wsThenDotReturn : List Char → Bool
  | [] => false
  | c :: rest => dotReturn (c :: rest) || (if jsWs c then wsThenDotReturn rest else false)

/-- The test of `/async\s+.*return\s+/` (compileHelper line 98): `async`,
at least one whitespace, then a line-local run, then `return` +
whitespace. -/
def asyncTest : List Char → Bool
  | [] => false
  | c :: rest =>
      (match litPref "async".toList (c :: rest) with
       | some (d :: r) => jsWs d ∧ wsThenDotReturn r
       | _ => false) || asyncTest rest

/-- The returns-a-value static check of `compileHelper` (lines 95-98):
`/=>\s*(\([^)]*\)|[^({\s])/` on the trimmed source, or
`/return\s+[^;]*/`, or `/async\s+.*return\s+/`. -/
def returnsValueCH (src : String) : Bool :=
  arrowTestCH (jsTrim src.toList) ||
  litThenWs "return".toList src.toList ||
  asyncTest src.toList

/-- The options of `compileHelper` (lines 62-68) that decide control flow
up to the `vm` step.  `timeout`, `wrapWithTimeout` and `executionTimeout`
only shape the compiled callable, not whether compilation is reached. -/
structure CHOpts where
  maxLength : Nat := 1000
  allowMultiline : Bool := true
  strictMode : Bool := false
  requireParameters : Bool := false

/-- The compiled result handed back by the `vm` step: whether
`ctx.module.exports` is a function, and its arity (`fn.length`). -/
structure CHFn where
  isFunction : Bool
  arity : Nat
  deriving DecidableEq, Repr

/-- `utils/compileHelper.js::compileHelper` (the enhanced definition,
lines 61-164).  `securityHit` abstracts the `SECURITY_PATTERNS` regex
battery of lines 37-48 (every theorem below holds for an arbitrary
battery, hence for the real one); `vmRun` abstracts
`new vm.Script(wrapped).runInContext` — `none` models a throw during
compilation/execution of the wrapper.  All thrown errors become
`Except.error` with the thrown message. -/
def compileHelper (securityHit : String → Bool) (vmRun : String → Option CHFn)
    (src : String) (opts : CHOpts) : Except String CHFn :=
  if src.length > opts.maxLength then
    .error ("Helper source exceeds maximum length (" ++ opts.maxLength.repr ++ " chars)")
  else if ¬opts.allowMultiline ∧ hasSub src "\n" then
    .error "Multiline helpers are not allowed in this context"
  else if securityHit src then
    .error "Security violation: Potentially unsafe code pattern detected"
  else if ¬returnsValueCH src then
    .error "Helper must explicitly return a value (use arrow function or return statement)"
  else
    match vmRun ("\"use strict\"; module.exports = (" ++ src ++ ");") with
    | none => .error "Syntax error in helper"
    | some fn =>
        if ¬fn.isFunction then .error "Compilation did not result in a function"
        else if opts.strictMode ∧ opts.requireParameters ∧ fn.arity = 0 then
          .error "Helper function must accept at least one parameter"
        else .ok fn

/-- Whether `compileHelper` reaches the `new vm.Script(...)` line
(compilation/execution of the helper source), mirroring the guard
structure of `compileHelper` above. -/
def compileHelperReachesVm (securityHit : String → Bool) (src : String)
    (opts : CHOpts) : Bool :=
  if src.length > opts.maxLength then false
  else if ¬opts.allowMultiline ∧ hasSub src "\n" then false
  else if securityHit src then false
  else if ¬returnsValueCH src then false
  else true

/-- `Except.error`-ness. -/
def isErr : Except ε α → Bool
  | .error _ => true
  | .ok _ => false

example : returnsValueCH "(dob) => new Date(dob).getFullYear()" = true := by decide
example : returnsValueCH "(x) => \x7b return x + 1 \x7d" = true := by decide
example : returnsValueCH "() => \x7b\x7d" = false := by decide
example : returnsValueCH "function f(x) \x7b x + 1 \x7d" = false := by decide
example : returnsValueCH "async (x) => \x7b return 1 \x7d" = true := by decide

/-! ## `utils/loadHelperModule.js` — both revisions
(`src/unnamed/part_010` enhanced, `src/unnamed/part_011` simple) -/

/-- A binding observed in the vm context after the module body ran:
a function (carrying its `toString()` source) or any other value. -/
inductive CtxVal where
  | fn : String → CtxVal
  | other : CtxVal
  deriving DecidableEq, Repr

/-- The context state after `runInContext` succeeded: whether
`ctx.module.exports` is a (truthy) object, its entries, and the iteration
order of the remaining context properties (`Object.entries(ctx)` without
`module`/`exports`, which the harvesting loops skip by name anyway and
which never hold functions of interest).  Produced by the execution
oracle abstracting the Node vm. -/
structure ExecCtx where
  exportsIsObj : Bool
  exportsEntries : List (String × CtxVal)
  ctxEntries : List (String × CtxVal)

/-- JS object property assignment on an entry list: replace in place if
the key exists, else append. -/
def objAssign (bag : List (String × String)) (k v : String) : List (String × String) :=
  if (bag.lookup k).isSome then bag.map (fun e => if e.1 = k then (k, v) else e)
  else bag ++ [(k, v)]

/-- The test of `/=>\s*[^({]/` (part_010 line 51, part_011 line 11):
`[^({]` does not exclude whitespace, so it matches exactly when some
`=>` is followed by a character other than `(` and `\x7b` (a whitespace
successor is matched with zero characters consumed by `\s*`). -/
def arrow11 : List Char → Bool
  | '=' :: '>' :: c :: rest => !(c = '(' ∨ c = '{') || arrow11 ('>' :: c :: rest)
  | _ :: rest => arrow11 rest
  | [] => false

/-- part_011's `returnsSomething` on a function's source:
`/=>\s*[^({]/ || /return\s+/`. -/
def returnsSomething11 (src : String) : Bool :=
  arrow11 src.toList || litThenWs "return".toList src.toList

/-- part_010's `returnsSomething` (lines 47-54):
`/=>\s*[^({]/ || /return\s+[^;]*/ || /async\s+.*return\s+/`. -/
def returnsSomething10 (src : String) : Bool :=
  arrow11 src.toList || litThenWs "return".toList src.toList || asyncTest src.toList

/-- The harvesting of both loaders (part_010 lines 124-142, part_011
lines 23-36): take exported functions passing `retOk`, then any other
context function binding not named in `skip` and not already in the
bag. -/
def harvestBag (skip : List String) (retOk : String → Bool) (ctx : ExecCtx) :
    List (String × String) :=
  let bag₀ :=
    if ctx.exportsIsObj then
      ctx.exportsEntries.foldl
        (fun bag e =>
          match e.2 with
          | .fn src => if retOk src then objAssign bag e.1 src else bag
          | .other => bag)
        []
    else []
  ctx.ctxEntries.foldl
    (fun bag e =>
      if skip.contains e.1 then bag
      else
        match e.2 with
        | .fn src =>
            if (bag.lookup e.1).isNone ∧ retOk src then bag ++ [(e.1, src)] else bag
        | .other => bag)
    bag₀

/-- `BAD_WORD = /require\(|import\s|process\./` (part_011 line 5). -/
def badWord11 (code : String) : Bool :=
  hasSub code "require(" || litThenWs "import".toList code.toList || hasSub code "process."

/-- part_011's `loadHelperModule` (lines 14-39): rejected size or
`BAD_WORD` or a throwing module body yield the empty table.  `exec`
abstracts `new vm.Script(code).runInContext` over the
`\x7bmodule, exports, Math, Date, Intl\x7d` context; `none` models a throw. -/
def loadHelperModule11 (exec : String → Option ExecCtx) (code : String) :
    List (String × String) :=
  if code.length > 10000 ∨ badWord11 code then []
  else
    match exec code with
    | none => []
    | some ctx => harvestBag ["module", "exports"] returnsSomething11 ctx

/-- `\b` between two (optional) characters: exactly one side is a word
character (string edges count as non-word). -/
def jsBoundary (a b : Option Char) : Bool :=
  (match a with | some c => wordChar c | none => false) ≠
  (match b with | some c => wordChar c | none => false)

/-- Match a literal, then `\s*`, then another literal; remainder on
success. -/
def litWsLit (p₁ : List Char) (mid : Char) : List Char → Option (List Char)
  | l => match litPref p₁ l with
    | some r =>
        (match r.dropWhile jsWs with
         | c :: r₂ => if c = mid then some r₂ else none
         | [] => none)
    | none => none

/-- One alternative of part_010's `DANGEROUS` pattern tried at the start
of `l`; returns the last matched character and the remainder, for the
trailing `\b` check. -/
def dangerAlt (l : List Char) : Option (Char × List Char) :=
  match litPref "process".toList l with
  | some r => some ('s', r)
  | none =>
  match litPref "global".toList l with
  | some r => some ('l', r)
  | none =>
  match litPref "eval".toList l with
  | some r => some ('l', r)
  | none =>
  match litWsLit "Function".toList '(' l with
  | some r => some ('(', r)
  | none =>
  match l with
  | q :: r₁ =>
      if q = '"' ∨ q = '\x27' then
        match litPref "constructor".toList r₁ with
        | some (q₂ :: r₂) =>
            if q₂ = '"' ∨ q₂ = '\x27' then some (q₂, r₂) else dangerAlt₂ l
        | _ => dangerAlt₂ l
      else dangerAlt₂ l
  | [] => none
where
  /-- remaining alternatives: `__proto__`, `prototype\s*=`,
  `constructor\.prototype`, `Object\.defineProperty\s*\(\s*Object\.prototype`. -/
  dangerAlt₂ (l : List Char) : Option (Char × List Char) :=
    match litPref "__proto__".toList l with
    | some r => some ('_', r)
    | none =>
    match litWsLit "prototype".toList '=' l with
    | some r => some ('=', r)
    | none =>
    match litPref "constructor.prototype".toList l with
    | some r => some ('e', r)
    | none =>
    match litWsLit "Object.defineProperty".toList '(' l with
    | some r₁ =>
        (match litPref "Object.prototype".toList (r₁.dropWhile jsWs) with
         | some r₂ => some ('e', r₂)
         | none => none)
    | none => none

/-- part_010 `DANGEROUS` (line 12):
`/\b(process|global|eval|Function\s*\(|["']constructor["']|__proto__|prototype\s*=|constructor\.prototype|Object\.defineProperty\s*\(\s*Object\.prototype)\b/`
— the leading and trailing `\b` sit outside the alternation group.  The
scan tracks the previous input character for the leading boundary. -/
def dangerScan : Option Char → List Char → Bool
  | _, [] => false
  | prev, c :: rest =>
      (match dangerAlt (c :: rest) with
       | some (last, rem) =>
           jsBoundary prev (some c) && jsBoundary (some last) rem.head?
       | none => false) ||
      dangerScan (some c) rest

/-- The remainder after `require\s*\(\s*["']`, when `l` starts so. -/
def requireQuoteMods (l : List Char) : Option (List Char) :=
  match litWsLit "require".toList '(' l with
  | some r₁ =>
      (match r₁.dropWhile jsWs with
       | q :: r₂ => if q = '"' ∨ q = '\x27' then some r₂ else none
       | [] => none)
  | none => none

/-- Does one of the alternation's module names match here with the
trailing `\b` satisfied?  Each alternative is tried, as regex
alternation with backtracking does (`http` failing its boundary does not
preclude `https`). -/
def modsBoundaryHit (mods : List (List Char)) (r₂ : List Char) : Bool :=
  mods.any (fun m =>
    match litPref m r₂ with
    | some r₃ =>
        (match m.getLast? with
         | some lastc => jsBoundary (some lastc) r₃.head?
         | none => false)
    | none => false)

/-- part_010 `FILESYSTEM` (line 14):
`/\b(require\s*\(\s*["'](?:fs|child_process|path|os|cluster))\b/`,
also instantiated with the `NETWORK` module names (line 16). -/
def fsScan (mods : List (List Char)) : Option Char → List Char → Bool
  | _, [] => false
  | prev, c :: rest =>
      (jsBoundary prev (some c) &&
       (match requireQuoteMods (c :: rest) with
        | some r₂ => modsBoundaryHit mods r₂
        | none => false)) ||
      fsScan mods (some c) rest

/-- part_010 `IMPORTS` (line 18): `/\b(import\s+|require\s*\(\s*)/`
(no trailing `\b`). -/
def importsScan : Option Char → List Char → Bool
  | _, [] => false
  | prev, c :: rest =>
      ((jsBoundary prev (some c) &&
        ((match litPref "import".toList (c :: rest) with
          | some (d :: _) => jsWs d
          | _ => false) ||
         (litWsLit "require".toList '(' (c :: rest)).isSome))) ||
      importsScan (some c) rest

/-- part_010 `PROCESS` (line 20): `/\b(process\.)|process\[/` — the `\b`
binds only to the first alternative. -/
def processScan : Option Char → List Char → Bool
  | _, [] => false
  | prev, c :: rest =>
      ((jsBoundary prev (some c) && (litPref "process.".toList (c :: rest)).isSome) ||
       (litPref "process[".toList (c :: rest)).isSome) ||
      processScan (some c) rest

/-- Lowercase hex digit (`[0-9a-f]` — the patterns carry no `i` flag). -/
def hexLower (c : Char) : Bool := c.isDigit ∨ ('a' ≤ c ∧ c ≤ 'f')

/-- Octal digit `[0-7]`. -/
def octDigit (c : Char) : Bool := '0' ≤ c ∧ c ≤ '7'

/-- The `.*\]\s*\(` tail of the obfuscation pattern from inside the
bracket: a `]` followed by `\s*` `(`, reachable without a line
terminator (`.` matches neither `\n` nor `\r`). -/
def brackThen : List Char → Bool
  | [] => false
  | c :: rest =>
      ((c = ']' : Bool) && (match rest.dropWhile jsWs with
                   | '(' :: _ => true
                   | _ => false)) ||
      (if c = '\n' ∨ c = '\r' then false else brackThen rest)

/-- One alternative of `OBFUSCATION` (line 22) tried at the start of `l`:
`\\x[0-9a-f]\x7b2\x7d | \\u[0-9a-f]\x7b4\x7d | \\[0-7]\x7b3\x7d | ;\s*\[.*\]\s*\(`. -/
def obfAt (l : List Char) : Bool :=
  (match l with
   | '\\' :: 'x' :: a :: b :: _ => hexLower a && hexLower b
   | _ => false) ||
  (match l with
   | '\\' :: 'u' :: a :: b :: c :: d :: _ =>
       hexLower a && hexLower b && hexLower c && hexLower d
   | _ => false) ||
  (match l with
   | '\\' :: a :: b :: c :: _ => octDigit a && octDigit b && octDigit c
   | _ => false) ||
  (match l with
   | ';' :: rest =>
       (match rest.dropWhile jsWs with
        | '[' :: r₂ => brackThen r₂
        | _ => false)
   | _ => false)

/-- Scan for an obfuscation-pattern match. -/
def obfScan : List Char → Bool
  | [] => false
  | c :: rest => obfAt (c :: rest) || obfScan rest

/-- The module names of `FILESYSTEM`. -/
def fsMods : List (List Char) :=
  ["fs".toList, "child_process".toList, "path".toList, "os".toList, "cluster".toList]

/-- The module names of `NETWORK` (line 16). -/
def netMods : List (List Char) :=
  ["http".toList, "https".toList, "net".toList, "dgram".toList]

/-- The full `SECURITY_PATTERNS` battery of part_010 (lines 83-91): any
match rejects the whole module (`IMPORTS` skipped when `allowImports`). -/
def v10Scan (allowImports : Bool) (code : List Char) : Bool :=
  dangerScan none code || fsScan fsMods none code || fsScan netMods none code ||
  (!allowImports && importsScan none code) || processScan none code || obfScan code

/-- The cache key `'helper_' + sha256(code)` (part_010 lines 94-95); the
hex digest of sha256 is modelled as an injective encoding of the source
itself (the code relies exactly on its collision-freedom). -/
def hashKey (code : String) : String := "helper_" ++ code

/-- The process-wide `global.__helperCache`: content key ↦ helper table. -/
abbrev HelperCache : Type := List (String × List (String × String))

/-- `global.__helperCache[cacheKey] = bag` (part_010 lines 145-147):
plain object property assignment — replace when present, else append;
nothing is ever evicted. -/
def helperCacheStore (cache : HelperCache) (key : String)
    (bag : List (String × String)) : HelperCache :=
  if (cache.lookup key).isSome then
    cache.map (fun e => if e.1 = key then (key, bag) else e)
  else cache ++ [(key, bag)]

/-- The options of part_010's loader (lines 64-69); `timeout` only
bounds the vm run. -/
structure LoadOpts where
  maxSize : Nat := 20000
  allowImports : Bool := false
  disableCache : Bool := false

/-- part_010's `loadHelperModule` (lines 63-151): size check, security
scan, content-hash cache lookup, sandboxed execution (abstracted by
`exec`; `none` models a throw, whose handler returns `\x7b\x7d` without
caching), harvesting, and unconditional insertion into the cache.
Returns the helper table and the updated cache. -/
def loadHelperModule10 (exec : String → Option ExecCtx) (cache : HelperCache)
    (code : String) (opts : LoadOpts) : List (String × String) × HelperCache :=
  if code.length > opts.maxSize then ([], cache)
  else if v10Scan opts.allowImports code.toList then ([], cache)
  else
    let key := hashKey code
    match if opts.disableCache then none else cache.lookup key with
    | some bag => (bag, cache)
    | none =>
        match exec code with
        | none => ([], cache)
        | some ctx =>
            let bag := harvestBag
              (["module", "exports", "Math", "Date", "Intl", "String", "Number",
                "Boolean", "Array", "Object", "RegExp", "Map", "Set", "WeakMap",
                "WeakSet", "Promise", "JSON", "console", "utils"])
              returnsSomething10 ctx
            if opts.disableCache then (bag, cache)
            else (bag, helperCacheStore cache key bag)

/-- Scenario D's helper-module source blob. -/
def scenarioDCode : String :=
  "function add(a,b)\x7breturn a+b\x7d\nfunction leak()\x7breturn process.env\x7d"

/-- What the Node vm would observe had the blob been executed: `add` and
`leak` as top-level function declarations (plus the safe globals, which
the harvest skips by name). -/
def scenarioDExec : String → Option ExecCtx := fun c =>
  if c = scenarioDCode then
    some
      { exportsIsObj := true
        exportsEntries := []
        ctxEntries :=
          [("Math", .other), ("Date", .other), ("Intl", .other),
           ("add", .fn "function add(a,b)\x7breturn a+b\x7d"),
           ("leak", .fn "function leak()\x7breturn process.env\x7d")] }
  else none

example : badWord11 scenarioDCode = true := by decide
example : processScan none scenarioDCode.toList = true := by decide
example : dangerScan none scenarioDCode.toList = true := by decide
example : v10Scan false scenarioDCode.toList = true := by decide
example : loadHelperModule11 scenarioDExec scenarioDCode = [] := by decide
example : loadHelperModule10 scenarioDExec [] scenarioDCode {} = ([], []) := by decide
example : v10Scan false "function f(x)\x7breturn x+1\x7d".toList = false := by decide
example : obfScan "; [1](".toList = true := by decide
example : dangerScan none "a.prototype =c".toList = true := by decide
example : dangerScan none "a.prototype = c".toList = false := by decide
example : fsScan fsMods none "require(\x27fs\x27)".toList = true := by decide
example : fsScan fsMods none "require(\x27fsx\x27)".toList = false := by decide
example : fsScan netMods none "require(\"https\")".toList = true := by decide
example : fsScan netMods none "require(\"httpx\")".toList = false := by decide

/-! ## Helper-cache growth: the distinct-code load family for C3 -/

/-- A module source consisting of `k` copies of the digit `1` (a bare
numeral expression statement: it passes every security pattern, executes
without effect and defines no binding). -/
def onesCode (k : Nat) : String := String.mk (List.replicate k '1')

/-- A sequence of `loadHelperModule` calls threading the process-wide
helper cache. -/
def runLoads (exec : String → Option ExecCtx) (opts : LoadOpts)
    (codes : List String) (cache : HelperCache) : HelperCache :=
  codes.foldl (fun c code => (loadHelperModule10 exec c code opts).2) cache

/-- The vm outcome on a side-effect-free module body that binds nothing:
`module.exports` stays the initial empty object. -/
def constEmptyExec : String → Option ExecCtx :=
  fun _ => some { exportsIsObj := true, exportsEntries := [], ctxEntries := [] }

/-- `n` loads of the distinct numeral modules of lengths `1..n`. -/
def runOnes (n : Nat) : HelperCache :=
  runLoads constEmptyExec { maxSize := n } (((List.range n).map Nat.succ).map onesCode) []

lemma dangerScan_ones (k : Nat) : ∀ prev, dangerScan prev (List.replicate k '1') = false := by
  induction k with
  | zero => intro prev; rfl
  | succ n ih =>
      intro prev
      simp +decide [List.replicate_succ, dangerScan, dangerAlt, dangerAlt.dangerAlt₂,
        litPref, litWsLit, ih]

lemma fsScan_ones (mods : List (List Char)) (k : Nat) :
    ∀ prev, fsScan mods prev (List.replicate k '1') = false := by
  induction k with
  | zero => intro prev; rfl
  | succ n ih =>
      intro prev
      simp +decide [List.replicate_succ, fsScan, requireQuoteMods, litPref, litWsLit, ih]

lemma importsScan_ones (k : Nat) :
    ∀ prev, importsScan prev (List.replicate k '1') = false := by
  induction k with
  | zero => intro prev; rfl
  | succ n ih =>
      intro prev
      simp +decide [List.replicate_succ, importsScan, litPref, litWsLit, ih]

lemma processScan_ones (k : Nat) :
    ∀ prev, processScan prev (List.replicate k '1') = false := by
  induction k with
  | zero => intro prev; rfl
  | succ n ih =>
      intro prev
      simp +decide [List.replicate_succ, processScan, litPref, ih]

lemma obfScan_ones (k : Nat) : obfScan (List.replicate k '1') = false := by
  induction k with
  | zero => rfl
  | succ n ih =>
      simp +decide [List.replicate_succ, obfScan, obfAt, ih]

lemma v10Scan_ones (a : Bool) (k : Nat) : v10Scan a (onesCode k).toList = false := by
  have ht : (onesCode k).data = List.replicate k '1' := rfl
  simp [v10Scan, String.toList, ht, dangerScan_ones, fsScan_ones, importsScan_ones,
    processScan_ones, obfScan_ones]

lemma length_onesCode (k : Nat) : (onesCode k).length = k := by
  simp [onesCode, String.length]

lemma onesCode_inj {a b : Nat} (h : onesCode a = onesCode b) : a = b := by
  have : (onesCode a).length = (onesCode b).length := by rw [h]
  simpa [length_onesCode] using this

lemma hashKey_ones_inj {a b : Nat} (h : hashKey (onesCode a) = hashKey (onesCode b)) :
    a = b := by
  apply onesCode_inj
  have hd : ("helper_" ++ onesCode a).data = ("helper_" ++ onesCode b).data := by
    rw [show ("helper_" ++ onesCode a) = hashKey (onesCode a) from rfl, h]; rfl
  have hdata : (onesCode a).data = (onesCode b).data := by
    simpa [String.data_append] using hd
  exact congrArg String.mk hdata

lemma store_fresh (cache : HelperCache) (key : String) (bag : List (String × String))
    (hfresh : cache.lookup key = none) :
    helperCacheStore cache key bag = cache ++ [(key, bag)] := by
  simp [helperCacheStore, hfresh]

lemma lookup_append_single (cache : HelperCache) (k key : String)
    (bag : List (String × String)) (h : cache.lookup k = none) (hne : k ≠ key) :
    ((cache ++ [(key, bag)]).lookup k) = none := by
  have hbeq : (k == key) = false := beq_eq_false_iff_ne.mpr hne
  induction cache with
  | nil => simp [List.lookup, hbeq]
  | cons e rest ih =>
      rw [List.cons_append]
      by_cases he : k == e.1
      · exfalso
        cases e with
        | mk a b => simp [List.lookup, he] at h
      · cases e with
        | mk a b =>
            simp only [List.lookup] at h ⊢
            simp only [Bool.not_eq_true] at he
            rw [he] at h ⊢
            exact ih h

lemma loadOnes_step (n k : Nat) (cache : HelperCache) (hk : k ≤ n)
    (hfresh : cache.lookup (hashKey (onesCode k)) = none) :
    (loadHelperModule10 constEmptyExec cache (onesCode k) { maxSize := n }).2
      = cache ++ [(hashKey (onesCode k), [])] := by
  have h1 : ¬ ((onesCode k).length > n) := by
    rw [length_onesCode]; omega
  have hscan : v10Scan false (onesCode k).data = false := v10Scan_ones false k
  simp [loadHelperModule10, h1, hscan, hfresh, constEmptyExec, harvestBag,
    store_fresh _ _ _ hfresh]

lemma runLoads_ones_length (n : Nat) :
    ∀ (ks : List Nat) (cache : HelperCache),
      (∀ k ∈ ks, k ≤ n) →
      (∀ k ∈ ks, cache.lookup (hashKey (onesCode k)) = none) →
      ks.Nodup →
      (runLoads constEmptyExec { maxSize := n } (ks.map onesCode) cache).length
        = cache.length + ks.length := by
  intro ks
  induction ks with
  | nil => intro cache _ _ _; simp [runLoads]
  | cons k ks ih =>
      intro cache hbound hfresh hnd
      have hstep := loadOnes_step n k cache (hbound k (by simp))
        (hfresh k (by simp))
      have hrun : runLoads constEmptyExec { maxSize := n } ((k :: ks).map onesCode) cache
          = runLoads constEmptyExec { maxSize := n } (ks.map onesCode)
              (cache ++ [(hashKey (onesCode k), [])]) := by
        simp [runLoads, hstep]
      rw [hrun]
      have hnd' := List.nodup_cons.mp hnd
      have := ih (cache ++ [(hashKey (onesCode k), [])])
        (fun k' hk' => hbound k' (by simp [hk']))
        (fun k' hk' =>
          lookup_append_single cache _ _ _ (hfresh k' (by simp [hk']))
            (fun he => hnd'.1 (by rw [hashKey_ones_inj he] at hk'; exact hk')))
        hnd'.2
      rw [this]
      simp
      omega


lemma runOnes_length (n : Nat) : (runOnes n).length = n := by
  unfold runOnes
  have h := runLoads_ones_length n ((List.range n).map Nat.succ) []
    (by
      intro k hk
      simp only [List.mem_map, List.mem_range] at hk
      obtain ⟨i, hi, rfl⟩ := hk
      omega)
    (by intro k _; rfl)
    (List.Nodup.map (fun a b h => Nat.succ_injective h) (List.nodup_range n))
  simpa using h

/-! ## Support lemmas for the render-pipeline claims -/

lemma hasSubList_cons (pat : List Char) (c : Char) (rest : List Char)
    (h : hasSubList pat rest = true) : hasSubList pat (c :: rest) = true := by
  simp [hasSubList, h]

lemma litPref_append (pat rest : List Char) : litPref pat (pat ++ rest) = some rest := by
  induction pat with
  | nil => cases rest <;> simp [litPref]
  | cons p ps ih => simp [litPref, ih]

lemma hasSubList_here (pat rest : List Char) : hasSubList pat (pat ++ rest) = true := by
  cases pat with
  | nil =>
      cases rest with
      | nil => simp [hasSubList, litPref]
      | cons c t => simp [hasSubList, litPref]
  | cons a b =>
      have h := litPref_append (a :: b) rest
      simp only [List.cons_append] at h ⊢
      simp [hasSubList, h]

lemma escBackticks_id (l : List Char) (h : ∀ c ∈ l, c ≠ '\x60') :
    escBackticks l = l := by
  induction l with
  | nil => rfl
  | cons c rest ih =>
      have hc : c ≠ '\x60' := h c (by simp)
      simp [escBackticks, hc, ih (fun d hd => h d (by simp [hd]))]

lemma matchVar_decomp (l : List Char) (k : String) (r : List Char)
    (h : matchVar l = some (k, r)) : l = k.data ++ '}' :: r := by
  unfold matchVar at h
  set w := l.takeWhile wordChar with hw
  by_cases he : w.isEmpty
  · simp [he] at h
  · simp only [he, Bool.false_eq_true, if_false] at h
    obtain ⟨tl, htl⟩ := l.takeWhile_prefix (p := wordChar)
    rw [← hw] at htl
    have hdrop : l.drop w.length = tl := by
      rw [← htl]
      simp
    rw [hdrop] at h
    cases tl with
    | nil => simp at h
    | cons c t =>
        by_cases hc : c = '}'
        · subst hc
          by_cases hh : t.head? = some '}'
          · simp [hh] at h
          · simp only [hh, if_false] at h
            have hkr : String.mk w = k ∧ t = r := by simpa using h
            obtain ⟨hk, hr⟩ := hkr
            subst hr
            rw [← htl, ← hk]
        · split at h
          · next heq => exact absurd (by injection heq) hc
          · cases h

lemma replVarsGo_empty (detect : Bool) :
    ∀ (fuel : Nat) (prev : Option Char) (l : List Char),
      (replVarsGo false detect [] fuel prev l).1 = l := by
  intro fuel
  induction fuel with
  | zero => intro prev l; rfl
  | succ n ih =>
      intro prev l
      cases l with
      | nil => rfl
      | cons c rest =>
          by_cases hcond : c = '{' ∧ prev ≠ some '{'
          · cases hmv : matchVar rest with
            | none => simp [replVarsGo, hcond, hmv, ih]
            | some kr =>
                obtain ⟨k, rest'⟩ := kr
                have hdec := matchVar_decomp rest k rest' hmv
                simp only [replVarsGo, hcond, if_true, hmv, List.lookup]
                simp [ih, hcond.1, hdec]
                split <;> rfl
          · simp [replVarsGo, hcond, ih]

lemma effMaxIter_none_ge (len : Nat) : 1000 ≤ effMaxIter none len := by
  simp [effMaxIter]

lemma renderModel_no_open (oracle : String → EvalOutcome) (l : List Char)
    (h : findOpen l = none) : renderModel oracle false none l = l := by
  have hM : 1000 ≤ effMaxIter none l.length := effMaxIter_none_ge l.length
  obtain ⟨m, hm⟩ : ∃ m, effMaxIter none l.length = m + 1 :=
    ⟨effMaxIter none l.length - 1, by omega⟩
  have hm0 : m ≠ 0 := by omega
  cases l with
  | nil => simp [renderModel, renderFuel, renderIter, hm]
  | cons c rest =>
      have hm' : effMaxIter none (rest.length + 1) = m + 1 := by simpa using hm
      simp [renderModel, renderFuel, renderIter, hm', h, hm0]

/-- The replacement the placeholder pass makes for `\x7bk\x7d` when `vars`
binds `k` to `v`, followed by what rendering then outputs: `String(v)`
for a string or number, the empty string for `null`/`undefined`. -/
def c7Result : VarVal → String
  | .vnull => ""
  | .vundef => ""
  | v => jsString v

lemma wordChar_ne_backtick (c : Char) (h : wordChar c = true) : c ≠ '\x60' := by
  intro he
  subst he
  simp [wordChar] at h

lemma takeWhile_word_key (k : List Char) (hk : ∀ c ∈ k, wordChar c = true) :
    (k ++ ['}']).takeWhile wordChar = k := by
  induction k with
  | nil => simp [List.takeWhile]; decide
  | cons c rest ih =>
      have hc := hk c (by simp)
      simp [List.takeWhile, hc, ih (fun d hd => hk d (by simp [hd]))]

lemma replVars_single (k : String) (v : VarVal) (detect : Bool)
    (hne : k.data ≠ []) (hword : ∀ c ∈ k.data, wordChar c = true) :
    (replVars false detect [(k, v)] ('{' :: k.data ++ ['}'])).1 = (c7Result v).data := by
  unfold replVars
  have hlen : ('{' :: k.data ++ ['}']).length = k.data.length + 2 := by simp
  rw [hlen]
  have hmv : matchVar (k.data ++ ['}']) = some (k, []) := by
    unfold matchVar
    rw [takeWhile_word_key k.data hword]
    have : ¬ k.data.isEmpty := by simpa [List.isEmpty_iff] using hne
    simp only [this, Bool.false_eq_true, if_false]
    rw [List.drop_left]
    rfl
  show (replVarsGo false detect [(k, v)] (k.data.length + 2) none
      ('{' :: (k.data ++ ['}']))).1 = (c7Result v).data
  simp only [replVarsGo, hmv]
  have hlk : ([(k, v)].lookup k) = some v := by simp [List.lookup]
  simp only [hlk]
  rw [if_pos (show True ∧ (none : Option Char) ≠ some '{' from ⟨trivial, by simp⟩)]
  cases v <;> simp [c7Result, jsString]

lemma fillVarsE_str_default (oracle : String → EvalOutcome)
    (vars : List (String × VarVal)) (t : String) :
    fillVarsE oracle (.str t) vars {} =
      .ok (String.mk (renderModel oracle false none
        (replVars false true vars (escBackticks t.toList)).1)) := by
  simp [fillVarsE]

lemma exists_ok_ite {C : Prop} [Decidable C] (A B : String) :
    ∃ s, (if C then Except.ok (ε := String) A else .ok B) = .ok s := by
  by_cases h : C <;> simp [h]

lemma marker_contains_error (m sfx : String) :
    hasSubList "Error".toList ("\x7b\x7bError: " ++ m ++ sfx).toList = true := by
  have h2 : ("\x7b\x7bError: " : String).data
      = '{' :: '{' :: ("Error".data ++ ": ".data) := by decide
  have h1 : ("\x7b\x7bError: " ++ m ++ sfx).data
      = '{' :: '{' :: ("Error".data ++ (": ".data ++ (m.data ++ sfx.data))) := by
    rw [String.data_append, String.data_append, h2]
    simp [List.append_assoc]
  show hasSubList "Error".data ("\x7b\x7bError: " ++ m ++ sfx).data = true
  rw [h1]
  exact hasSubList_cons _ _ _ (hasSubList_cons _ _ _ (hasSubList_here _ _))

/-- The outcome the Node vm produces for `(async () => (undefinedVar + 1))()`
in a context that does not bind `undefinedVar`: a `ReferenceError` whose
message is `undefinedVar is not defined`. -/
def refErrOracle : String → EvalOutcome := fun _ => .thrown "undefinedVar is not defined"

/-- An evaluation oracle for renders that never reach an expression. -/
def inertOracle : String → EvalOutcome := fun _ => .thrown "inert"

/-- Oracle for the iteration-limit scenario: the expression `x` evaluates
to the string `X`. -/
def c5Oracle : String → EvalOutcome := fun e =>
  if e = "x" then .ok (.str "X") else .thrown "unused"

/-- Oracle under which the expression `1` evaluates to the number `1`. -/
def oneOracle : String → EvalOutcome := fun e =>
  if e = "1" then .ok (.num 1) else .thrown "not reached"

/-- Oracle producing a `Date`, `undefined`, or a plain object, keyed by
the expression text. -/
def dateOracle : String → EvalOutcome := fun e =>
  if e = "d" then .ok (.date "2024-05-06T12:00:00.000Z")
  else if e = "u" then .ok .undef
  else .ok (.obj "\x7b\"a\":1\x7d")

/-- A template of 11 nested expression blocks (deeper than the default
`maxRenderDepth` of 10) around the expression `1`. -/
def nestedTemplate : String :=
  String.mk (List.replicate 22 '{' ++ '1' :: List.replicate 22 '}')

/-- The exact non-debug iteration-limit message for `maxIterations = 1`
on a 7-character template. -/
def c5Msg : String :=
  "\x7b\x7bError: Template processing exceeded 1 iterations (template length: 7) - possible infinite loop or very complex template\x7d\x7d"

/-- A 1001-character helper source exceeding the default size limit. -/
def longSrc : String := String.mk (List.replicate 1001 'a')

/-- A security battery that never fires (one instantiation of the
abstracted `SECURITY_PATTERNS` test). -/
def secNone : String → Bool := fun _ => false

/-- A vm step producing a unary function. -/
def vmOk : String → Option CHFn := fun _ => some { isFunction := true, arity := 1 }

/-! ## Claim theorems -/

/-- C1: for every template, vars map and helpers map, the render entry
point resolves to a string and never throws: the body of `fillVars`
resolves (`Except.ok`) on every path, and every individual expression
failure is caught inside `evalExpr` and rendered as an inline
`\x7b\x7bError: ...\x7d\x7d` marker containing `Error`; in particular
`render("\x7b\x7b undefinedVar + 1 \x7d\x7d", \x7b\x7d, \x7b\x7d)` resolves to a string
containing `Error`. -/
theorem claim_C1_render_recovers_errors :
    (∀ (oracle : String → EvalOutcome) (debug : Bool) (e : List Char) (m : String),
        oracle (String.mk e) = .thrown m →
        hasSubList "Error".toList (evalExpr oracle debug e) = true) ∧
    (∀ (oracle : String → EvalOutcome) (arg : TemplateArg)
        (vars : List (String × VarVal)) (opts : FillOpts),
        ∃ s, fillVarsE oracle arg vars opts = .ok s) ∧
    (fillVarsE refErrOracle (.str "\x7b\x7b undefinedVar + 1 \x7d\x7d") [] {}
        = .ok "\x7b\x7bError: undefinedVar is not defined\x7d\x7d" ∧
      hasSub "\x7b\x7bError: undefinedVar is not defined\x7d\x7d" "Error" = true) := by
  refine ⟨?_, ?_, by decide, by decide⟩
  · intro oracle debug e m h
    unfold evalExpr
    rw [h]
    cases debug with
    | true => exact marker_contains_error m _
    | false => exact marker_contains_error m "\x7d\x7d"
  · intro oracle arg vars opts
    cases arg with
    | nonString => exact ⟨"", rfl⟩
    | str t => exact exists_ok_ite _ _

/-- Witness for C1 at a concrete failing expression. -/
theorem claim_C1_witness :
    refErrOracle (String.mk "undefinedVar + 1".toList) = .thrown "undefinedVar is not defined" ∧
    hasSubList "Error".toList (evalExpr refErrOracle false "undefinedVar + 1".toList) = true :=
  ⟨rfl, claim_C1_render_recovers_errors.1 refErrOracle false _ _ rfl⟩

/-- C4 counterexample: a backtick is literal text (no placeholder and no
expression block), yet `fillVars` escapes it before rendering, so the
output is `\\\x60`, not the template itself. -/
theorem claim_C4_counterexample :
    fillVarsE inertOracle (.str "\x60") [] {} = .ok "\\\x60" ∧
    ("\\\x60" : String) ≠ "\x60" := by
  constructor
  · decide
  · decide

/-- C4 (amended): for every template containing no backtick and no
`\x7b\x7b` opener, `render(t, \x7b\x7d, \x7b\x7d)` with default options returns `t`
verbatim (with empty `vars`, `\x7bname\x7d` placeholders are left untouched,
so no placeholder hypothesis is needed). -/
theorem claim_C4_literal_identity :
    ∀ (oracle : String → EvalOutcome) (t : String),
      (∀ c ∈ t.toList, c ≠ '\x60') →
      findOpen t.toList = none →
      fillVarsE oracle (.str t) [] {} = .ok t := by
  intro oracle t hbt hopen
  rw [fillVarsE_str_default]
  rw [escBackticks_id t.toList hbt]
  have hrepl : (replVars false true [] t.toList).1 = t.toList :=
    replVarsGo_empty true _ none _
  rw [hrepl, renderModel_no_open oracle t.toList hopen]
  rfl

/-- Witness for C4 on a concrete literal template. -/
theorem claim_C4_witness :
    (∀ c ∈ ("Hello, world." : String).toList, c ≠ '\x60') ∧
    findOpen ("Hello, world." : String).toList = none ∧
    fillVarsE inertOracle (.str "Hello, world.") [] {} = .ok "Hello, world." :=
  ⟨by decide, by decide,
    claim_C4_literal_identity inertOracle "Hello, world." (by decide) (by decide)⟩

/-- C5 counterexample: with `maxIterations = 1` the template
`a\x7b\x7bx\x7d\x7db` accumulates the partial output `aX` before the counter
trips, but `render` returns only the classified message — the partial
output does not occur in the result. -/
theorem claim_C5_counterexample :
    fillVarsE c5Oracle (.str "a\x7b\x7bx\x7d\x7db") [] { maxIterations := some 1 } = .ok c5Msg ∧
    hasSub c5Msg "aX" = false := by
  constructor
  · decide
  · decide

/-- C5 (amended): whenever the iteration counter reaches its limit
(the loop returns with no iterations left), `render` returns *only* the
classified iteration-limit message; the accumulated partial output is
discarded. -/
theorem claim_C5_iteration_limit_message :
    ∀ (oracle : String → EvalOutcome) (debug : Bool) (mo : Option Nat) (tpl : List Char),
      (renderIter (renderFuel oracle debug tpl.length none) oracle debug tpl
          (effMaxIter mo tpl.length) 0 []).2 = 0 →
      renderModel oracle debug mo tpl
        = iterLimitMsg debug (effMaxIter mo tpl.length) tpl.length := by
  intro oracle debug mo tpl h
  simp [renderModel, renderFuel, h]

/-- Witness for C5 at the concrete limit-tripping render. -/
theorem claim_C5_witness :
    (renderIter (renderFuel c5Oracle false ("a\x7b\x7bx\x7d\x7db".toList).length none) c5Oracle false
        "a\x7b\x7bx\x7d\x7db".toList (effMaxIter (some 1) ("a\x7b\x7bx\x7d\x7db".toList).length) 0 []).2 = 0 ∧
    renderModel c5Oracle false (some 1) "a\x7b\x7bx\x7d\x7db".toList
      = iterLimitMsg false (effMaxIter (some 1) ("a\x7b\x7bx\x7d\x7db".toList).length)
          ("a\x7b\x7bx\x7d\x7db".toList).length :=
  ⟨by decide, claim_C5_iteration_limit_message c5Oracle false (some 1) _ (by decide)⟩

/-- C6: a template with 11 nested expression blocks (deeper than the
default `maxRenderDepth` of 10) renders to the innermost value `1` with
no depth-exceeded marker and no error at all: the recursion of `render`
on nested blocks bypasses `renderWithDepth`, whose depth counter is
incremented only for the single top-level call. -/
theorem claim_C6_depth_not_enforced :
    fillVarsE oneOracle (.str nestedTemplate) [] {} = .ok "1" ∧
    hasSub "1" "Error" = false := by
  constructor
  · decide
  · decide

/-- C7 counterexample: a `null` scalar renders `\x7bk\x7d` to the empty
string, not to `String(null) = "null"`. -/
theorem claim_C7_counterexample :
    fillVarsE inertOracle (.str "\x7bx\x7d") [("x", VarVal.vnull)] {} = .ok "" ∧
    jsString VarVal.vnull = "null" ∧ ("" : String) ≠ "null" := by
  refine ⟨by decide, by decide, by decide⟩

/-- C7 (amended): for a word-character key `k` bound to scalar `v`,
rendering `"\x7bk\x7d"` yields `String(v)` when `v` is a string (whose text
contains no `\x7b\x7b` opener) or a number, and the empty string when `v`
is `null` or `undefined`. -/
theorem claim_C7_scalar_substitution :
    ∀ (oracle : String → EvalOutcome) (k : String) (v : VarVal),
      k.toList ≠ [] →
      (∀ c ∈ k.toList, wordChar c = true) →
      findOpen (c7Result v).toList = none →
      fillVarsE oracle (.str ("\x7b" ++ k ++ "\x7d")) [(k, v)] {} = .ok (c7Result v) := by
  intro oracle k v hne hword hopen
  rw [fillVarsE_str_default]
  have hdata : ("\x7b" ++ k ++ "\x7d").toList = '{' :: k.data ++ ['}'] := by
    show ("\x7b" ++ k ++ "\x7d").data = _
    simp [String.data_append]
  rw [hdata]
  have hesc : escBackticks ('{' :: k.data ++ ['}']) = '{' :: k.data ++ ['}'] := by
    apply escBackticks_id
    intro c hc
    have hc' : c = '{' ∨ c ∈ k.data ∨ c = '}' := by simpa using hc
    rcases hc' with h | h | h
    · subst h; decide
    · exact wordChar_ne_backtick c (hword c h)
    · subst h; decide
  rw [hesc, replVars_single k v true hne hword,
    renderModel_no_open oracle ((c7Result v).data) hopen]

/-- Witness for C7 with a numeric scalar. -/
theorem claim_C7_witness :
    fillVarsE inertOracle (.str "\x7bk\x7d") [("k", VarVal.vnum 42)] {} = .ok "42" := by
  have h := claim_C7_scalar_substitution inertOracle "k" (VarVal.vnum 42)
    (by decide) (by decide) (by decide)
  exact h.trans (by decide)

/-- C9 counterexample: a non-string template argument does not raise — the
call resolves normally to the empty string. -/
theorem claim_C9_counterexample :
    fillVarsE inertOracle TemplateArg.nonString [] {} = .ok "" := by
  decide

/-- C9 (amended): the render entry point never fails fast: a non-string
template argument is handled gracefully and resolves to `''`, and every
string template resolves to a rendered string. -/
theorem claim_C9_no_failfast :
    (∀ (oracle : String → EvalOutcome) (vars : List (String × VarVal)) (opts : FillOpts),
        fillVarsE oracle TemplateArg.nonString vars opts = .ok "") ∧
    (∀ (oracle : String → EvalOutcome) (t : String)
        (vars : List (String × VarVal)) (opts : FillOpts),
        ∃ s, fillVarsE oracle (.str t) vars opts = .ok s) := by
  constructor
  · intro oracle vars opts; rfl
  · intro oracle t vars opts
    exact exists_ok_ite _ _

/-- C10: when an expression evaluates successfully, `undefined` re-emits
the literal `\x7b\x7bexpr\x7d\x7d` block (for the trimmed, nested-resolved
expression text), a `Date` is emitted as the first 10 characters of its
ISO string, and any other object as its JSON serialization. -/
theorem claim_C10_success_stringification :
    ∀ (oracle : String → EvalOutcome) (debug : Bool) (e : List Char),
      (oracle (String.mk e) = .ok .undef →
        evalExpr oracle debug e = "\x7b\x7b".toList ++ e ++ "\x7d\x7d".toList) ∧
      (∀ iso, oracle (String.mk e) = .ok (.date iso) →
        evalExpr oracle debug e = (iso.take 10).toList) ∧
      (∀ j, oracle (String.mk e) = .ok (.obj j) →
        evalExpr oracle debug e = j.toList) := by
  intro oracle debug e
  refine ⟨fun h => ?_, fun iso h => ?_, fun j h => ?_⟩ <;>
    simp [evalExpr, h, jsToString]

/-- Witness for C10 on concrete date/undefined/object evaluations. -/
theorem claim_C10_witness :
    evalExpr dateOracle false "d".toList = ("2024-05-06T12:00:00.000Z".take 10).toList ∧
    evalExpr dateOracle false "u".toList = "\x7b\x7b".toList ++ "u".toList ++ "\x7d\x7d".toList ∧
    evalExpr dateOracle false "x".toList = "\x7b\"a\":1\x7d".toList :=
  ⟨(claim_C10_success_stringification dateOracle false _).2.1 _ (by decide),
   (claim_C10_success_stringification dateOracle false _).1 (by decide),
   (claim_C10_success_stringification dateOracle false _).2.2 _ (by decide)⟩

/-- C8: `compileHelper` throws — and never reaches the `vm` compilation
step — for every source longer than the configured size limit
(`maxLength`, default 1000), and for every source failing the static
returns-a-value check; this holds for every options object and for an
arbitrary behaviour of the security-pattern battery and of the vm
step. -/
theorem claim_C8_compile_rejects :
    ∀ (sec : String → Bool) (vmRun : String → Option CHFn) (src : String) (opts : CHOpts),
      (opts.maxLength < src.length →
        isErr (compileHelper sec vmRun src opts) = true ∧
        compileHelperReachesVm sec src opts = false) ∧
      (returnsValueCH src = false →
        isErr (compileHelper sec vmRun src opts) = true ∧
        compileHelperReachesVm sec src opts = false) := by
  intro sec vmRun src opts
  constructor
  · intro h
    have h' : src.length > opts.maxLength := h
    constructor <;> simp [compileHelper, compileHelperReachesVm, h', isErr]
  · intro h
    by_cases hl : src.length > opts.maxLength
    · constructor <;> simp [compileHelper, compileHelperReachesVm, hl, isErr]
    · by_cases hm : opts.allowMultiline = false ∧ hasSub src "\n" = true
      · constructor <;>
          simp [compileHelper, compileHelperReachesVm, hl, hm, isErr]
      · by_cases hsec : sec src
        · constructor <;>
            simp [compileHelper, compileHelperReachesVm, hl, hm, hsec, isErr, h]
        · constructor <;>
            simp [compileHelper, compileHelperReachesVm, hl, hm, hsec, isErr, h]

/-- Witness for C8: an oversized source and a returns-nothing source. -/
theorem claim_C8_witness :
    (1000 < longSrc.length ∧ isErr (compileHelper secNone vmOk longSrc {}) = true) ∧
    (returnsValueCH "() => \x7b\x7d" = false ∧
      isErr (compileHelper secNone vmOk "() => \x7b\x7d" {}) = true) := by
  have h1 : 1000 < longSrc.length := by
    have hlen : longSrc.length = 1001 := by
      rw [show longSrc.length = longSrc.data.length from rfl,
        show longSrc.data = List.replicate 1001 'a' from rfl, List.length_replicate]
    omega
  have h2 : returnsValueCH "() => \x7b\x7d" = false := by decide
  exact ⟨⟨h1, ((claim_C8_compile_rejects secNone vmOk longSrc {}).1 h1).1⟩,
         ⟨h2, ((claim_C8_compile_rejects secNone vmOk _ {}).2 h2).1⟩⟩

/-- C2 counterexample: on the Scenario D blob both loader revisions
return a table that does *not* contain `add` — the whole module is
rejected by the security scan (`process` access), so there is no
per-function filtering. -/
theorem claim_C2_counterexample :
    (loadHelperModule10 scenarioDExec [] scenarioDCode {}).1.lookup "add" = none ∧
    (loadHelperModule11 scenarioDExec scenarioDCode).lookup "add" = none := by
  constructor
  · decide
  · decide

/-- C2 (amended): the Scenario D blob is rejected as a whole: for any vm
behaviour, any cache state and any options, the enhanced loader returns
the empty table (and leaves the cache untouched), and so does the simple
revision — neither `add` nor `leak` is registered. -/
theorem claim_C2_module_rejected_whole :
    ∀ (exec : String → Option ExecCtx) (cache : HelperCache) (opts : LoadOpts),
      loadHelperModule10 exec cache scenarioDCode opts = ([], cache) ∧
      loadHelperModule11 exec scenarioDCode = [] := by
  intro exec cache opts
  constructor
  · have hs : v10Scan opts.allowImports scenarioDCode.toList = true := by
      cases opts.allowImports
      · decide
      · decide
    have hs' : v10Scan opts.allowImports scenarioDCode.data = true := hs
    unfold loadHelperModule10
    by_cases h : scenarioDCode.length > opts.maxSize
    · simp [h]
    · simp [h, hs, hs']
  · have hb : badWord11 scenarioDCode = true := by decide
    unfold loadHelperModule11
    simp [hb]

/-- C3 counterexample: loading 5001 distinct helper-module sources leaves
5001 entries in the helper cache — more than the 5000-entry capacity of
the expression cache (and any capacity configured anywhere in the
subsystem) — and no constant bounds the cache size over all load
sequences. -/
theorem claim_C3_counterexample :
    (runOnes 5001).length = 5001 ∧ 5000 < 5001 ∧
    ¬ ∃ B : Nat, ∀ n : Nat, (runOnes n).length ≤ B := by
  refine ⟨runOnes_length 5001, by omega, ?_⟩
  rintro ⟨B, hB⟩
  have h := hB (B + 1)
  rw [runOnes_length] at h
  omega

/-- C3 (amended): the Expression Cache never exceeds its configured
capacity of 5000 under any operation sequence; the Helper Module Cache
has no capacity bound: storing under a fresh content hash always adds an
entry and the store operation never evicts. -/
theorem claim_C3_caches :
    (∀ ops : List (CacheOp Nat),
        ((ops.foldl LRU.apply (expressionCacheInit Nat)).entries.length ≤ 5000)) ∧
    (∀ (cache : HelperCache) (key : String) (bag : List (String × String)),
        cache.lookup key = none →
        (helperCacheStore cache key bag).length = cache.length + 1) ∧
    (∀ (cache : HelperCache) (key : String) (bag : List (String × String)),
        cache.length ≤ (helperCacheStore cache key bag).length) := by
  refine ⟨?_, ?_, ?_⟩
  · intro ops
    exact LRU.length_foldl_le ops _ (by norm_num [expressionCacheInit])
      (by simp [expressionCacheInit])
  · intro cache key bag h
    simp [helperCacheStore, h]
  · intro cache key bag
    by_cases h : (cache.lookup key).isSome <;> simp [helperCacheStore, h]

/-- Witness for C3's fresh-key store growth. -/
theorem claim_C3_witness :
    ([] : HelperCache).lookup "helper_k" = none ∧
    (helperCacheStore [] "helper_k" []).length = 0 + 1 :=
  ⟨rfl, claim_C3_caches.2.1 [] "helper_k" [] rfl⟩
